import Mathlib

/-!
Verification of the resumable asset materialization pipeline in
`download_memories.py` (Snapchat-Memories-Downloader).

The Python source is shallowly embedded: bytes are `List Nat`, the output
directory is a write log (`FS`), the `metadata.json` ledger is a
`List Entry`, and the per-item download loop of `download_all_memories` is
a recursive function `runItems` threading the ledger, the list of persisted
snapshots (one per `save_metadata` call) and the set of indices for which a
network fetch was attempted.  Exceptions are made explicit: the caught
exception tuple `(OSError, requests.RequestException, zipfile.BadZipFile)`
of the orchestrator is the `DlResult.err` constructor, and the uncaught
`IndexError` that `files_saved[0]` raises on an empty extraction result is
the `aborted` flag.
-/

namespace SnapMem

/-- A byte, kept as a `Nat` (0 ≤ b < 256 is irrelevant to the claims). -/
abbrev Byte := Nat

/-- The output directory, modelled as the ordered log of file writes
(`open(path, 'wb')` truncates, so a later write to the same name wins). -/
abbrev FS := List (String × List Byte)

/-- One `open(output_path, 'wb'); f.write(data)` call. -/
def writeF (fs : FS) (name : String) (data : List Byte) : FS :=
  fs ++ [(name, data)]

/-- The current content of a file: the payload of the last write to `name`. -/
def readF (fs : FS) (name : String) : Option (List Byte) :=
  ((fs.filter (fun p => p.1 == name)).getLast?).map (fun p => p.2)

/-- `is_zip_file` (download_memories.py:97-99): `content[:2] == b'PK'`.
`b'PK'` is the two bytes 80, 75; Python slicing of a short buffer just
yields a shorter buffer, which then compares unequal. -/
def is_zip_file (content : List Byte) : Bool :=
  content.take 2 == [80, 75]

/-- ASCII lowering of a string, embedding Python `str.lower()` on the
ASCII member names appearing in the archives. -/
def lowerStr (s : String) : String := ⟨s.data.map Char.toLower⟩

/-- `pat` occurs at the head of `s` (helper for the substring test). -/
def startsWithL : List Char → List Char → Bool
  | [], _ => true
  | _ :: _, [] => false
  | p :: ps, c :: cs => p == c && startsWithL ps cs

/-- Python `pat in s` substring containment over characters. -/
def hasSub (pat : List Char) : List Char → Bool
  | [] => startsWithL pat []
  | c :: cs => startsWithL pat (c :: cs) || hasSub pat cs

end SnapMem

namespace SnapMem

/-- Result type of a download: `type` field of the Python dict. -/
inductive FType
  | main
  | overlay
  | single
  deriving Repr, DecidableEq

/-- One element of the `files_saved` list returned by
`download_and_extract`: `{'path': ..., 'size': ..., 'type': ...}`. -/
structure FileRef where
  path : String
  size : Nat
  ftype : FType
  deriving Repr, DecidableEq

/-- One member of the downloaded ZIP archive: a name (as listed by
`zf.namelist()`) together with the bytes `zf.read(name)` yields.  Faithful
for archives without duplicate member names. -/
structure ZipMember where
  name : String
  data : List Byte
  deriving Repr, DecidableEq

/-- Role test of the extraction loop (download_memories.py:126):
`'-overlay' in zip_info.lower()`. -/
def isOverlayName (zi : ZipMember) : Bool :=
  hasSub "-overlay".data (lowerStr zi.name).data

/-- Output filename of one archive member (download_memories.py:126-132):
`{file_num}-overlay{extension}` for an overlay member, else
`{file_num}-main{extension}`. -/
def zipPath (file_num extension : String) (zi : ZipMember) : String :=
  if isOverlayName zi then file_num ++ "-overlay" ++ extension
  else file_num ++ "-main" ++ extension

/-- The dict appended to `files_saved` for one archive member
(download_memories.py:140-144). -/
def zipRef (file_num extension : String) (zi : ZipMember) : FileRef :=
  { path := zipPath file_num extension zi
    size := zi.data.length
    ftype := if isOverlayName zi then FType.overlay else FType.main }

/-- One iteration of the `for zip_info in zf.namelist()` loop
(download_memories.py:121-144): write the member's bytes to its output
path and append its FileRef. -/
def zipStep (file_num extension : String) (acc : List FileRef × FS)
    (zi : ZipMember) : List FileRef × FS :=
  (acc.1 ++ [zipRef file_num extension zi],
    writeF acc.2 (zipPath file_num extension zi) zi.data)

/-- `download_and_extract` (download_memories.py:102-160), after the HTTP
response succeeded with body `content`.  When `is_zip_file content`, the
`zipfile` module yields the archive members `members`; the loop writes each
member to `{file_num}-overlay{extension}` when its lowercased name contains
`'-overlay'`, else to `{file_num}-main{extension}`, appending a FileRef per
member.  Otherwise the whole payload goes to `{file_num}{extension}` as a
single FileRef. -/
def download_and_extract (content : List Byte) (members : List ZipMember)
    (file_num extension : String) (fs : FS) : List FileRef × FS :=
  if is_zip_file content then
    members.foldl (zipStep file_num extension) ([], fs)
  else
    let output_filename := file_num ++ extension
    ([⟨output_filename, content.length, FType.single⟩],
      writeF fs output_filename content)

end SnapMem

namespace SnapMem

/-- Naive `datetime` value as produced by `datetime.strptime`. -/
structure DT where
  year : Nat
  month : Nat
  day : Nat
  hour : Nat
  minute : Nat
  second : Nat
  deriving Repr, DecidableEq

/-- ASCII decimal digits to a number (the regex groups of `_strptime` are
converted with `int`). -/
def digitsToNat (cs : List Char) : Nat :=
  cs.foldl (fun a c => a * 10 + (c.toNat - 48)) 0

/-- Python `\s` whitespace (ASCII part), for the `' '` in the format which
`_strptime` compiles to `\s+`. -/
def isPySpace (c : Char) : Bool :=
  c == ' ' || c == '\t' || c == '\n' || c == '\r' || c.toNat == 11 || c.toNat == 12

/-- `datetime` leap-year rule. -/
def isLeap (y : Nat) : Bool :=
  y % 4 == 0 && (y % 100 != 0 || y % 400 == 0)

/-- Days in a month, as validated by the `datetime` constructor. -/
def daysInMonth (y m : Nat) : Nat :=
  if m == 2 then (if isLeap y then 29 else 28)
  else if m == 4 || m == 6 || m == 9 || m == 11 then 30
  else 31

/-- `datetime.strptime(s, '%Y-%m-%d %H:%M:%S')` (the call at
download_memories.py:179).  CPython's `_strptime` compiles the format to a
regex: `%Y` is exactly four digits; `%m`,`%d`,`%H`,`%M`,`%S` are one- or
two-digit groups restricted to 1-12, 1-31, 0-23, 0-59, 0-61 respectively
(two-digit `00` is not accepted for `%m`/`%d`); `-` and `:` are literal;
the space matches one or more whitespace characters; the whole string must
be consumed.  The extracted fields then go through the `datetime`
constructor, which rejects year 0, a day beyond the month's length, and
leap seconds 60/61.  `none` embeds the `ValueError` either stage raises.
Digits are modelled as ASCII digits. -/
def strptimeYmdHms (cs : List Char) : Option DT :=
  let (ys, r1) := cs.span Char.isDigit
  if ys.length != 4 then none else
  match r1 with
  | '-' :: r2 =>
    let (ms, r3) := r2.span Char.isDigit
    let m := digitsToNat ms
    if !(ms.length == 1 || ms.length == 2) || m < 1 || 12 < m then none else
    match r3 with
    | '-' :: r4 =>
      let (ds, r5) := r4.span Char.isDigit
      let d := digitsToNat ds
      if !(ds.length == 1 || ds.length == 2) || d < 1 || 31 < d then none else
      let (ws, r6) := r5.span isPySpace
      if ws.isEmpty then none else
      let (hs, r7) := r6.span Char.isDigit
      let h := digitsToNat hs
      if !(hs.length == 1 || hs.length == 2) || 23 < h then none else
      match r7 with
      | ':' :: r8 =>
        let (mins, r9) := r8.span Char.isDigit
        let mi := digitsToNat mins
        if !(mins.length == 1 || mins.length == 2) || 59 < mi then none else
        match r9 with
        | ':' :: r10 =>
          let (ss, r11) := r10.span Char.isDigit
          let s := digitsToNat ss
          if !(ss.length == 1 || ss.length == 2) || 61 < s then none else
          if !r11.isEmpty then none else
          let y := digitsToNat ys
          if y < 1 then none else
          if daysInMonth y m < d then none else
          if 59 < s then none else
          some ⟨y, m, d, h, mi, s⟩
        | _ => none
      | _ => none
    | _ => none
  | _ => none

/-- `date_str.replace(' UTC', '')` (download_memories.py:178): every
non-overlapping occurrence of the four characters `' UTC'` is removed,
scanning left to right. -/
def stripUTC : List Char → List Char
  | ' ' :: 'U' :: 'T' :: 'C' :: rest => stripUTC rest
  | c :: rest => c :: stripUTC rest
  | [] => []

/-- Days from 1970-01-01 to year/month/day of the proleptic Gregorian
calendar (`y ≥ 1`), the civil-from-days inverse used to embed epoch
arithmetic. -/
def daysFromCivil (y m d : Nat) : Int :=
  let y1 := if m ≤ 2 then y - 1 else y
  let era := y1 / 400
  let yoe := y1 % 400
  let mp := (m + 9) % 12
  let doy := (153 * mp + 2) / 5 + (d - 1)
  let doe := yoe * 365 + yoe / 4 - yoe / 100 + doy
  (era * 146097 + doe : Int) - 719468

/-- Seconds from the epoch to the instant whose UTC wall clock reads `dt`. -/
def utcEpoch (dt : DT) : Int :=
  daysFromCivil dt.year dt.month dt.day * 86400
    + dt.hour * 3600 + dt.minute * 60 + dt.second

/-- `dt.timestamp()` on the naive datetime (download_memories.py:181).
CPython interprets a naive datetime in the HOST's local timezone:
`tzOffset` is that zone's UTC offset in seconds (east positive), so the
result is the UTC epoch of the digits minus the offset.  A UTC host has
`tzOffset = 0`. -/
def datetime_timestamp (tzOffset : Int) (dt : DT) : Int :=
  utcEpoch dt - tzOffset

/-- Explicit Python control flow: a value, or a raised exception carrying
the exception class name. -/
inductive PyRes (α : Type)
  | val (a : α)
  | exc (e : String)
  deriving Repr, DecidableEq

/-- `datetime.strptime` as Python sees it: a `ValueError` on parse
failure. -/
def strptimeR (cs : List Char) : PyRes DT :=
  match strptimeYmdHms cs with
  | some dt => PyRes.val dt
  | none => PyRes.exc "ValueError"

/-- `parse_date_to_timestamp` (download_memories.py:171-184) on a host
whose local timezone has UTC offset `tzOffset` seconds: strips `' UTC'`,
parses with `strptime`, converts with `dt.timestamp()`; the
`except (ValueError, AttributeError)` clause turns those two exception
classes into `None`. -/
def parse_date_to_timestamp (tzOffset : Int) (date_str : String) :
    PyRes (Option Int) :=
  match strptimeR (stripUTC date_str.data) with
  | PyRes.exc e =>
    if e == "ValueError" || e == "AttributeError" then PyRes.val none
    else PyRes.exc e
  | PyRes.val dt => PyRes.val (some (datetime_timestamp tzOffset dt))

end SnapMem

namespace SnapMem

/-- `status` field values used by the pipeline. -/
inductive Status
  | pending
  | in_progress
  | success
  | failed
  deriving Repr, DecidableEq

/-- One input record as produced by the HTML parser: the dict keys the
orchestrator reads with `.get`, absent keys as `none`. -/
structure Record where
  date : Option String
  media_type : Option String
  latitude : Option String
  longitude : Option String
  url : Option String
  deriving Repr, DecidableEq

/-- One metadata entry of `metadata.json`. -/
structure Entry where
  number : Nat
  date : String
  media_type : String
  latitude : String
  longitude : String
  url : String
  status : Status
  files : List FileRef
  error : Option String
  deriving Repr, DecidableEq

/-- The seeded dict appended per memory by `initialize_metadata`
(download_memories.py:210-223): `.get` defaults applied, `status`
`pending`, `files` empty, no `error` key. -/
def seedEntry (idx : Nat) (m : Record) : Entry :=
  { number := idx
    date := m.date.getD "Unknown"
    media_type := m.media_type.getD "Unknown"
    latitude := m.latitude.getD "Unknown"
    longitude := m.longitude.getD "Unknown"
    url := m.url.getD ""
    status := Status.pending
    files := []
    error := none }

/-- `initialize_metadata` (download_memories.py:193-230) in the branch
where no `metadata.json` exists yet: `enumerate(memories, start=1)` seeds
one pending entry per record.  (The other branch returns the loaded file
verbatim.) -/
def initialize_metadata (memories : List Record) : List Entry :=
  (memories.enumFrom 1).map (fun p => seedEntry p.1 p.2)

/-- Item selection of `download_all_memories`
(download_memories.py:262-277): `if resume: ... elif retry_failed: ...
else:` over `enumerate(metadata_list)`. -/
def selectItems (resume retry_failed : Bool) (metadata_list : List Entry) :
    List (Nat × Entry) :=
  if resume then
    metadata_list.enum.filter (fun p =>
      p.2.status == Status.pending || p.2.status == Status.in_progress
        || p.2.status == Status.failed)
  else if retry_failed then
    metadata_list.enum.filter (fun p => p.2.status == Status.failed)
  else
    metadata_list.enum

/-- Outcome of the `download_and_extract` call for one item, as the
orchestrator's `try` block sees it: either the returned `files_saved`
list, or an exception of one of the CAUGHT classes `(OSError,
requests.RequestException, zipfile.BadZipFile)` carrying `str(e)`. -/
inductive DlResult
  | ok (files_saved : List FileRef)
  | err (msg : String)
  deriving Repr, DecidableEq

/-- The skip test at download_memories.py:298:
`metadata.get('status') == 'success' and metadata.get('files')`. -/
def skipCheck (e : Entry) : Bool :=
  e.status == Status.success && !e.files.isEmpty

/-- State after running (part of) the download loop: the in-memory
`metadata_list`, the persisted snapshots (one list element per
`save_metadata` call, in order), the indices for which
`download_and_extract` was invoked, and whether the loop died on an
uncaught exception. -/
structure RunOut where
  ledger : List Entry
  saves : List (List Entry)
  fetched : List Nat
  aborted : Bool
  deriving Repr, DecidableEq

/-- The `for count, (idx, metadata) in enumerate(items_to_download)` loop
of `download_all_memories` (download_memories.py:287-344), followed by the
final `save_metadata` (line 344).  Per selected index: the skip test
(line 298) leaves everything untouched; otherwise the entry is marked
`in_progress` and the ledger persisted (lines 303-304), then the `try`
block runs `download_and_extract` (line 308).  A result list of length ≠ 1
other than many is displayed via `files_saved[0]` (line 316), so an EMPTY
`files_saved` raises an uncaught `IndexError`: the loop aborts there with
no further transition or save.  A non-empty result marks `success` with
`files := files_saved` (lines 331-332); a caught exception marks `failed`
recording `str(e)` (lines 336-337); both persist (line 340) and continue.
The unreachable `none` lookup (selection always yields in-range indices)
is a no-op. -/
def runItems (results : Nat → DlResult) :
    List Nat → List Entry → List (List Entry) → List Nat → RunOut
  | [], ledger, saves, fetched => ⟨ledger, saves ++ [ledger], fetched, false⟩
  | i :: rest, ledger, saves, fetched =>
    match ledger.get? i with
    | none => runItems results rest ledger saves fetched
    | some e =>
      if skipCheck e then
        runItems results rest ledger saves fetched
      else
        let e1 : Entry := { e with status := Status.in_progress }
        let l1 := ledger.set i e1
        let saves1 := saves ++ [l1]
        let fetched1 := fetched ++ [i]
        match results i with
        | DlResult.ok [] => ⟨l1, saves1, fetched1, true⟩
        | DlResult.ok files_saved =>
          let e2 : Entry :=
            { e1 with status := Status.success, files := files_saved }
          let l2 := l1.set i e2
          runItems results rest l2 (saves1 ++ [l2]) fetched1
        | DlResult.err m =>
          let e2 : Entry :=
            { e1 with status := Status.failed, error := some m }
          let l2 := l1.set i e2
          runItems results rest l2 (saves1 ++ [l2]) fetched1

/-- `download_all_memories` (download_memories.py:240-344) from the point
where the ledger is initialized: select items per run mode, return early
when nothing is selected (lines 279-281), else run the loop. -/
def download_all_memories (resume retry_failed : Bool)
    (results : Nat → DlResult) (metadata_list : List Entry) : RunOut :=
  let sel := (selectItems resume retry_failed metadata_list).map Prod.fst
  if sel.isEmpty then ⟨metadata_list, [], [], false⟩
  else runItems results sel metadata_list [] []

/-- The ledger invariant of the spec: `files` non-empty iff
`status == success`. -/
def invEntry (e : Entry) : Prop :=
  e.files ≠ [] ↔ e.status = Status.success

instance (e : Entry) : Decidable (invEntry e) := by
  unfold invEntry; infer_instance

end SnapMem

namespace SnapMem

/-! ### Filesystem lemmas -/

theorem readF_writeF_same (fs : FS) (n : String) (d : List Byte) :
    readF (writeF fs n d) n = some d := by
  unfold readF writeF
  rw [List.filter_append]
  simp [List.getLast?_concat]

theorem readF_writeF_ne (fs : FS) (n n' : String) (d : List Byte)
    (h : n ≠ n') : readF (writeF fs n d) n' = readF fs n' := by
  unfold readF writeF
  rw [List.filter_append]
  have hb : (n == n') = false := beq_eq_false_iff_ne.mpr h
  simp [List.filter, hb]

/-! ### Extraction-loop lemmas -/

theorem zip_foldl (file_num extension : String) :
    ∀ (members : List ZipMember) (acc : List FileRef × FS),
      members.foldl (zipStep file_num extension) acc
        = (acc.1 ++ members.map (zipRef file_num extension),
           acc.2 ++ members.map
             (fun zi => (zipPath file_num extension zi, zi.data))) := by
  intro members
  induction members with
  | nil => intro acc; simp
  | cons zi rest ih =>
    intro acc
    rw [List.foldl_cons, ih]
    simp [zipStep, writeF]

end SnapMem

namespace SnapMem

theorem overlayPath_ne_mainPath (fn ext : String) :
    fn ++ "-overlay" ++ ext ≠ fn ++ "-main" ++ ext := by
  intro h
  have hl := congrArg String.length h
  have h8 : ("-overlay" : String).length = 8 := by decide
  have h5 : ("-main" : String).length = 5 := by decide
  rw [String.length_append, String.length_append, String.length_append,
    String.length_append, h8, h5] at hl
  omega

theorem download_and_extract_zip (content : List Byte)
    (members : List ZipMember) (fn ext : String) (fs : FS)
    (hz : is_zip_file content = true) :
    download_and_extract content members fn ext fs
      = (members.map (zipRef fn ext),
         fs ++ members.map (fun zi => (zipPath fn ext zi, zi.data))) := by
  unfold download_and_extract
  simp only [hz, if_true]
  rw [zip_foldl]
  simp

/-- C6: for every archive response, each member is classified `overlay`
exactly when its lowercased name contains `-overlay` and written to
`{file_num}-overlay{ext}`, else classified `main` and written to
`{file_num}-main{ext}`; an archive with one `-overlay` member and one
plain member yields exactly the FileRefs `overlay` then `main`, and both
payloads are on disk under those names. -/
theorem c6_archive_classification :
    ∀ (content : List Byte) (members : List ZipMember)
      (file_num extension : String) (fs : FS),
      is_zip_file content = true →
      ((download_and_extract content members file_num extension fs).1
          = members.map (fun zi =>
              if hasSub "-overlay".data (lowerStr zi.name).data then
                { path := file_num ++ "-overlay" ++ extension,
                  size := zi.data.length, ftype := FType.overlay }
              else
                { path := file_num ++ "-main" ++ extension,
                  size := zi.data.length, ftype := FType.main })) ∧
      (∀ n1 d1 n2 d2, members = [⟨n1, d1⟩, ⟨n2, d2⟩] →
        hasSub "-overlay".data (lowerStr n1).data = true →
        hasSub "-overlay".data (lowerStr n2).data = false →
        (download_and_extract content members file_num extension fs).1
            = [⟨file_num ++ "-overlay" ++ extension, d1.length, FType.overlay⟩,
               ⟨file_num ++ "-main" ++ extension, d2.length, FType.main⟩] ∧
        readF (download_and_extract content members file_num extension fs).2
            (file_num ++ "-overlay" ++ extension) = some d1 ∧
        readF (download_and_extract content members file_num extension fs).2
            (file_num ++ "-main" ++ extension) = some d2) := by
  intro content members fn ext fs hz
  have hde := download_and_extract_zip content members fn ext fs hz
  constructor
  · rw [hde]
    apply List.map_congr_left
    intro zi _
    by_cases hc : hasSub "-overlay".data (lowerStr zi.name).data
    · simp [zipRef, zipPath, isOverlayName, hc]
    · simp [zipRef, zipPath, isOverlayName, hc]
  · intro n1 d1 n2 d2 hm h1 h2
    subst hm
    have hsnd : (download_and_extract content [⟨n1, d1⟩, ⟨n2, d2⟩] fn ext fs).2
        = writeF (writeF fs (fn ++ "-overlay" ++ ext) d1)
            (fn ++ "-main" ++ ext) d2 := by
      rw [hde]
      simp [zipPath, isOverlayName, h1, h2, writeF]
    refine ⟨?_, ?_, ?_⟩
    · rw [hde]
      simp [zipRef, zipPath, isOverlayName, h1, h2]
    · rw [hsnd,
        readF_writeF_ne _ _ _ _ (Ne.symm (overlayPath_ne_mainPath fn ext))]
      exact readF_writeF_same _ _ _
    · rw [hsnd]
      exact readF_writeF_same _ _ _

/-- C6 witness: a concrete archive with an overlay member and a main
member. -/
theorem c6_archive_classification_witness :
    (download_and_extract [80, 75, 3, 4]
        [⟨"video-Overlay.png", [1, 2]⟩, ⟨"video-main.mp4", [3, 4, 5]⟩]
        "01" ".mp4" []).1
      = [⟨"01" ++ "-overlay" ++ ".mp4", 2, FType.overlay⟩,
         ⟨"01" ++ "-main" ++ ".mp4", 3, FType.main⟩] ∧
    readF (download_and_extract [80, 75, 3, 4]
        [⟨"video-Overlay.png", [1, 2]⟩, ⟨"video-main.mp4", [3, 4, 5]⟩]
        "01" ".mp4" []).2 ("01" ++ "-overlay" ++ ".mp4") = some [1, 2] ∧
    readF (download_and_extract [80, 75, 3, 4]
        [⟨"video-Overlay.png", [1, 2]⟩, ⟨"video-main.mp4", [3, 4, 5]⟩]
        "01" ".mp4" []).2 ("01" ++ "-main" ++ ".mp4") = some [3, 4, 5] :=
  (c6_archive_classification [80, 75, 3, 4]
      [⟨"video-Overlay.png", [1, 2]⟩, ⟨"video-main.mp4", [3, 4, 5]⟩]
      "01" ".mp4" [] (by decide)).2
    "video-Overlay.png" [1, 2] "video-main.mp4" [3, 4, 5] rfl
    (by decide) (by decide)

/-- C7: a non-archive response of N bytes yields exactly one FileRef of
type `single` at `{file_num}{ext}` with `size = N`, and that file's
content on disk is byte-identical to the response body. -/
theorem c7_singleton :
    ∀ (content : List Byte) (members : List ZipMember)
      (file_num extension : String) (fs : FS),
      is_zip_file content = false →
      (download_and_extract content members file_num extension fs).1
          = [⟨file_num ++ extension, content.length, FType.single⟩] ∧
      readF (download_and_extract content members file_num extension fs).2
          (file_num ++ extension) = some content := by
  intro content members fn ext fs h
  have hde : download_and_extract content members fn ext fs
      = ([⟨fn ++ ext, content.length, FType.single⟩],
         writeF fs (fn ++ ext) content) := by
    unfold download_and_extract
    simp [h]
  rw [hde]
  exact ⟨rfl, readF_writeF_same _ _ _⟩

/-- C7 witness: a concrete two-byte JPEG-ish payload. -/
theorem c7_singleton_witness :
    (download_and_extract [255, 216] [] "01" ".jpg" []).1
        = [⟨"01" ++ ".jpg", 2, FType.single⟩] ∧
      readF (download_and_extract [255, 216] [] "01" ".jpg" []).2
        ("01" ++ ".jpg") = some [255, 216] :=
  c7_singleton [255, 216] [] "01" ".jpg" [] (by decide)

/-- C9: `is_zip_file` is true exactly when the buffer has at least two
bytes and they are `P` (80) and `K` (75); the empty buffer is false. -/
theorem c9_is_zip_magic :
    (∀ content : List Byte,
      is_zip_file content = true ↔
        2 ≤ content.length ∧ content.get? 0 = some 80
          ∧ content.get? 1 = some 75) ∧
    is_zip_file [] = false := by
  constructor
  · intro content
    match content with
    | [] => simp [is_zip_file]
    | [a] => simp [is_zip_file]
    | a :: b :: t => simp [is_zip_file, and_comm]
  · rfl

/-- C9 witness: a concrete ZIP local-header magic. -/
theorem c9_is_zip_magic_witness : is_zip_file [80, 75, 3, 4] = true :=
  (c9_is_zip_magic.1 [80, 75, 3, 4]).mpr (by decide)

end SnapMem

namespace SnapMem

/-- C10: for an archive response every member is written to one of only
two paths, the returned list has one FileRef per member (so duplicates of
a role overwrite each other on disk while the list keeps both), two
same-role members leave only the later member's bytes at the shared path,
and a zero-member archive yields the empty FileRef list (and no write). -/
theorem c10_same_role_overwrite :
    ∀ (content : List Byte) (members : List ZipMember)
      (file_num extension : String) (fs : FS),
      is_zip_file content = true →
      ((download_and_extract content members file_num extension fs).1.length
          = members.length) ∧
      (∀ r ∈ (download_and_extract content members file_num extension fs).1,
        r.path = file_num ++ "-main" ++ extension
          ∨ r.path = file_num ++ "-overlay" ++ extension) ∧
      (members = [] →
        download_and_extract content members file_num extension fs = ([], fs)) ∧
      (∀ n1 d1 n2 d2, members = [⟨n1, d1⟩, ⟨n2, d2⟩] →
        hasSub "-overlay".data (lowerStr n1).data = false →
        hasSub "-overlay".data (lowerStr n2).data = false →
        (download_and_extract content members file_num extension fs).1
            = [⟨file_num ++ "-main" ++ extension, d1.length, FType.main⟩,
               ⟨file_num ++ "-main" ++ extension, d2.length, FType.main⟩] ∧
        readF (download_and_extract content members file_num extension fs).2
            (file_num ++ "-main" ++ extension) = some d2) := by
  intro content members fn ext fs hz
  have hde := download_and_extract_zip content members fn ext fs hz
  refine ⟨?_, ?_, ?_, ?_⟩
  · rw [hde]
    simp
  · rw [hde]
    intro r hr
    rcases List.mem_map.mp hr with ⟨zi, _, hzi⟩
    subst hzi
    by_cases hc : isOverlayName zi
    · right; simp [zipRef, zipPath, hc]
    · left; simp [zipRef, zipPath, hc]
  · intro hm
    subst hm
    rw [hde]
    simp
  · intro n1 d1 n2 d2 hm h1 h2
    subst hm
    have hsnd : (download_and_extract content [⟨n1, d1⟩, ⟨n2, d2⟩] fn ext fs).2
        = writeF (writeF fs (fn ++ "-main" ++ ext) d1)
            (fn ++ "-main" ++ ext) d2 := by
      rw [hde]
      simp [zipPath, isOverlayName, h1, h2, writeF]
    refine ⟨?_, ?_⟩
    · rw [hde]
      simp [zipRef, zipPath, isOverlayName, h1, h2]
    · rw [hsnd]
      exact readF_writeF_same _ _ _

/-- C10 witness: two plain members collapse to one `-main` file holding
the second member's bytes, while the FileRef list still has two entries. -/
theorem c10_same_role_overwrite_witness :
    (download_and_extract [80, 75, 3, 4]
        [⟨"a.jpg", [1]⟩, ⟨"b.jpg", [2, 3]⟩] "07" ".jpg" []).1
      = [⟨"07" ++ "-main" ++ ".jpg", 1, FType.main⟩,
         ⟨"07" ++ "-main" ++ ".jpg", 2, FType.main⟩] ∧
    readF (download_and_extract [80, 75, 3, 4]
        [⟨"a.jpg", [1]⟩, ⟨"b.jpg", [2, 3]⟩] "07" ".jpg" []).2
      ("07" ++ "-main" ++ ".jpg") = some [2, 3] :=
  (c10_same_role_overwrite [80, 75, 3, 4]
      [⟨"a.jpg", [1]⟩, ⟨"b.jpg", [2, 3]⟩] "07" ".jpg" [] (by decide)).2.2.2
    "a.jpg" [1] "b.jpg" [2, 3] rfl (by decide) (by decide)

/-- C1 (code bug): `parse_date_to_timestamp` converts the parsed naive
datetime with `datetime.timestamp()`, which reads the digits in the HOST's
local timezone.  On a UTC host (offset 0) the input
`"2025-11-30 00:31:09 UTC"` maps to 1764462669, the instant whose UTC
rendering equals the digits; on a UTC-8 host (offset -28800 s, e.g.
America/Los_Angeles) the very same input maps to 1764491469, 8 hours
later — so the same wall-clock digits do NOT map to the same instant on
every host, contradicting the claim and the repository's own regression
test `test_utc_parsing_is_correct`. -/
theorem c1_naive_timestamp_reads_host_local_time :
    parse_date_to_timestamp 0 "2025-11-30 00:31:09 UTC"
        = PyRes.val (some 1764462669) ∧
    parse_date_to_timestamp (-28800) "2025-11-30 00:31:09 UTC"
        = PyRes.val (some 1764491469) ∧
    parse_date_to_timestamp (-28800) "2025-11-30 00:31:09 UTC"
        ≠ parse_date_to_timestamp 0 "2025-11-30 00:31:09 UTC" := by
  refine ⟨by decide, by decide, ?_⟩
  intro h
  have := h.symm.trans (by decide :
    parse_date_to_timestamp (-28800) "2025-11-30 00:31:09 UTC"
      = PyRes.val (some 1764491469))
  rw [(by decide : parse_date_to_timestamp 0 "2025-11-30 00:31:09 UTC"
      = PyRes.val (some 1764462669))] at this
  exact absurd this (by decide)

/-- C8: for every host-timezone offset and every input string, the
embedded `parse_date_to_timestamp` returns a value and never lets an
exception escape (its `except (ValueError, AttributeError)` covers the
only exception `strptime` raises), and whenever the cleaned string fails
to parse as `%Y-%m-%d %H:%M:%S` the value is `None`. -/
theorem c8_parse_failure_returns_none :
    ∀ (tzOffset : Int) (date_str : String),
      (∃ v, parse_date_to_timestamp tzOffset date_str = PyRes.val v) ∧
      (strptimeYmdHms (stripUTC date_str.data) = none →
        parse_date_to_timestamp tzOffset date_str = PyRes.val none) := by
  intro tz s
  constructor
  · rcases h : strptimeYmdHms (stripUTC s.data) with _ | dt
    · exact ⟨none, by simp [parse_date_to_timestamp, strptimeR, h]⟩
    · exact ⟨some (datetime_timestamp tz dt),
        by simp [parse_date_to_timestamp, strptimeR, h]⟩
  · intro h
    simp [parse_date_to_timestamp, strptimeR, h]

/-- C8 witness: the malformed input from the repository's own test
(`test_invalid_date_returns_none`) degrades to `None`. -/
theorem c8_parse_failure_returns_none_witness :
    parse_date_to_timestamp 0 "invalid date" = PyRes.val none :=
  (c8_parse_failure_returns_none 0 "invalid date").2 (by decide)

end SnapMem

namespace SnapMem

/-! ### Unfolding equations for the download loop -/

theorem runItems_nil (results : Nat → DlResult) (ledger : List Entry)
    (saves : List (List Entry)) (fetched : List Nat) :
    runItems results [] ledger saves fetched
      = ⟨ledger, saves ++ [ledger], fetched, false⟩ := rfl

theorem runItems_cons_none (results : Nat → DlResult) {ledger : List Entry}
    {i : Nat} (rest : List Nat) (saves : List (List Entry))
    (fetched : List Nat) (hg : ledger.get? i = none) :
    runItems results (i :: rest) ledger saves fetched
      = runItems results rest ledger saves fetched := by
  have hg2 : ledger[i]? = none := by simpa [List.get?_eq_getElem?] using hg
  simp [runItems, hg2]

theorem runItems_cons_skip (results : Nat → DlResult) {ledger : List Entry}
    {i : Nat} (rest : List Nat) (saves : List (List Entry))
    (fetched : List Nat) {e : Entry} (hg : ledger.get? i = some e)
    (hsk : skipCheck e = true) :
    runItems results (i :: rest) ledger saves fetched
      = runItems results rest ledger saves fetched := by
  have hg2 : ledger[i]? = some e := by simpa [List.get?_eq_getElem?] using hg
  simp [runItems, hg2, hsk]

theorem runItems_cons_abort (results : Nat → DlResult) {ledger : List Entry}
    {i : Nat} (rest : List Nat) (saves : List (List Entry))
    (fetched : List Nat) {e : Entry} (hg : ledger.get? i = some e)
    (hsk : skipCheck e = false) (hr : results i = DlResult.ok []) :
    runItems results (i :: rest) ledger saves fetched
      = ⟨ledger.set i { e with status := Status.in_progress },
         saves ++ [ledger.set i { e with status := Status.in_progress }],
         fetched ++ [i], true⟩ := by
  have hg2 : ledger[i]? = some e := by simpa [List.get?_eq_getElem?] using hg
  simp [runItems, hg2, hsk, hr]

theorem runItems_cons_ok (results : Nat → DlResult) {ledger : List Entry}
    {i : Nat} (rest : List Nat) (saves : List (List Entry))
    (fetched : List Nat) {e : Entry} {f : FileRef} {fsr : List FileRef}
    (hg : ledger.get? i = some e) (hsk : skipCheck e = false)
    (hr : results i = DlResult.ok (f :: fsr)) :
    runItems results (i :: rest) ledger saves fetched
      = runItems results rest
          ((ledger.set i { e with status := Status.in_progress }).set i
            { e with status := Status.success, files := f :: fsr })
          (saves ++ [ledger.set i { e with status := Status.in_progress },
            (ledger.set i { e with status := Status.in_progress }).set i
              { e with status := Status.success, files := f :: fsr }])
          (fetched ++ [i]) := by
  have hg2 : ledger[i]? = some e := by simpa [List.get?_eq_getElem?] using hg
  simp [runItems, hg2, hsk, hr]

theorem runItems_cons_err (results : Nat → DlResult) {ledger : List Entry}
    {i : Nat} (rest : List Nat) (saves : List (List Entry))
    (fetched : List Nat) {e : Entry} {m : String}
    (hg : ledger.get? i = some e) (hsk : skipCheck e = false)
    (hr : results i = DlResult.err m) :
    runItems results (i :: rest) ledger saves fetched
      = runItems results rest
          ((ledger.set i { e with status := Status.in_progress }).set i
            { e with status := Status.failed, error := some m })
          (saves ++ [ledger.set i { e with status := Status.in_progress },
            (ledger.set i { e with status := Status.in_progress }).set i
              { e with status := Status.failed, error := some m }])
          (fetched ++ [i]) := by
  have hg2 : ledger[i]? = some e := by simpa [List.get?_eq_getElem?] using hg
  simp [runItems, hg2, hsk, hr]

/-! ### Structural lemmas about the loop -/

theorem runItems_saves_mono (results : Nat → DlResult) :
    ∀ (sel : List Nat) (ledger : List Entry) (saves : List (List Entry))
      (fetched : List Nat) (snap : List Entry), snap ∈ saves →
      snap ∈ (runItems results sel ledger saves fetched).saves := by
  intro sel
  induction sel with
  | nil =>
    intro ledger saves fetched snap hs
    rw [runItems_nil]
    exact List.mem_append_left _ hs
  | cons i rest ih =>
    intro ledger saves fetched snap hs
    rcases hg : ledger.get? i with _ | e
    · rw [runItems_cons_none results rest saves fetched hg]
      exact ih _ _ _ _ hs
    · cases hsk : skipCheck e with
      | true =>
        rw [runItems_cons_skip results rest saves fetched hg hsk]
        exact ih _ _ _ _ hs
      | false =>
        rcases hr : results i with fsv | m
        · rcases fsv with _ | ⟨f, fsr⟩
          · rw [runItems_cons_abort results rest saves fetched hg hsk hr]
            exact List.mem_append_left _ hs
          · rw [runItems_cons_ok results rest saves fetched hg hsk hr]
            exact ih _ _ _ _ (List.mem_append_left _ hs)
        · rw [runItems_cons_err results rest saves fetched hg hsk hr]
          exact ih _ _ _ _ (List.mem_append_left _ hs)

theorem runItems_untouched (results : Nat → DlResult) :
    ∀ (sel : List Nat) (ledger : List Entry) (saves : List (List Entry))
      (fetched : List Nat) (k : Nat), k ∉ sel →
      (runItems results sel ledger saves fetched).ledger.get? k
        = ledger.get? k := by
  intro sel
  induction sel with
  | nil => intro ledger saves fetched k _; rfl
  | cons i rest ih =>
    intro ledger saves fetched k hk
    have hki : k ≠ i := fun h => hk (h ▸ List.mem_cons_self _ _)
    have hkr : k ∉ rest := fun h => hk (List.mem_cons_of_mem _ h)
    have hset : ∀ (l : List Entry) (x : Entry), (l.set i x).get? k = l.get? k := by
      intro l x
      simp [List.get?_eq_getElem?, List.getElem?_set_ne (Ne.symm hki)]
    rcases hg : ledger.get? i with _ | e
    · rw [runItems_cons_none results rest saves fetched hg]
      exact ih _ _ _ _ hkr
    · cases hsk : skipCheck e with
      | true =>
        rw [runItems_cons_skip results rest saves fetched hg hsk]
        exact ih _ _ _ _ hkr
      | false =>
        rcases hr : results i with fsv | m
        · rcases fsv with _ | ⟨f, fsr⟩
          · rw [runItems_cons_abort results rest saves fetched hg hsk hr]
            exact hset ledger _
          · rw [runItems_cons_ok results rest saves fetched hg hsk hr,
              ih _ _ _ _ hkr, hset, hset]
        · rw [runItems_cons_err results rest saves fetched hg hsk hr,
            ih _ _ _ _ hkr, hset, hset]

theorem runItems_sync (results : Nat → DlResult) :
    ∀ (sel : List Nat) (ledger : List Entry) (saves : List (List Entry))
      (fetched : List Nat),
      (runItems results sel ledger saves fetched).saves.getLast?
        = some (runItems results sel ledger saves fetched).ledger := by
  intro sel
  induction sel with
  | nil =>
    intro ledger saves fetched
    rw [runItems_nil]
    exact List.getLast?_concat _
  | cons i rest ih =>
    intro ledger saves fetched
    rcases hg : ledger.get? i with _ | e
    · rw [runItems_cons_none results rest saves fetched hg]
      exact ih _ _ _
    · cases hsk : skipCheck e with
      | true =>
        rw [runItems_cons_skip results rest saves fetched hg hsk]
        exact ih _ _ _
      | false =>
        rcases hr : results i with fsv | m
        · rcases fsv with _ | ⟨f, fsr⟩
          · rw [runItems_cons_abort results rest saves fetched hg hsk hr]
            exact List.getLast?_concat _
          · rw [runItems_cons_ok results rest saves fetched hg hsk hr]
            exact ih _ _ _
        · rw [runItems_cons_err results rest saves fetched hg hsk hr]
          exact ih _ _ _

end SnapMem

namespace SnapMem

/-- C2: every seeded entry satisfies the ledger invariant
(`files` non-empty iff `status = success`), and the download loop
preserves it across every transition — initial seed, mark in_progress,
mark success, mark failed, for ANY `download_and_extract` result — both
for the in-memory ledger and for every persisted snapshot.  (A `success`
entry always gets a non-empty `files` because an empty result list aborts
the loop before the success transition.) -/
theorem c2_files_nonempty_iff_success :
    (∀ memories : List Record, ∀ e ∈ initialize_metadata memories, invEntry e) ∧
    (∀ (results : Nat → DlResult) (sel : List Nat) (ledger : List Entry)
       (saves : List (List Entry)) (fetched : List Nat),
      (∀ e ∈ ledger, invEntry e) →
      (∀ snap ∈ saves, ∀ e ∈ snap, invEntry e) →
      (∀ e ∈ (runItems results sel ledger saves fetched).ledger, invEntry e) ∧
      (∀ snap ∈ (runItems results sel ledger saves fetched).saves,
        ∀ e ∈ snap, invEntry e)) := by
  constructor
  · intro memories e he
    rcases List.mem_map.mp he with ⟨p, _, rfl⟩
    simp [invEntry, seedEntry]
  · intro results sel
    induction sel with
    | nil =>
      intro ledger saves fetched hled hsav
      rw [runItems_nil]
      refine ⟨hled, ?_⟩
      intro snap hsnap e he
      rcases List.mem_append.mp hsnap with h | h
      · exact hsav snap h e he
      · rw [List.mem_singleton.mp h] at he
        exact hled e he
    | cons i rest ih =>
      intro ledger saves fetched hled hsav
      rcases hg : ledger.get? i with _ | e0
      · rw [runItems_cons_none results rest saves fetched hg]
        exact ih _ _ _ hled hsav
      · cases hsk : skipCheck e0 with
        | true =>
          rw [runItems_cons_skip results rest saves fetched hg hsk]
          exact ih _ _ _ hled hsav
        | false =>
          have he0 : invEntry e0 := hled e0 (List.get?_mem hg)
          have hfiles : e0.files = [] := by
            rcases hf : e0.files with _ | ⟨x, xs⟩
            · rfl
            · have hs : e0.status = Status.success := he0.mp (by rw [hf]; simp)
              have hT : skipCheck e0 = true := by simp [skipCheck, hs, hf]
              rw [hT] at hsk
              simp at hsk
          have hinv1 : invEntry { e0 with status := Status.in_progress } := by
            simp [invEntry, hfiles]
          have hl1 : ∀ e ∈ ledger.set i { e0 with status := Status.in_progress },
              invEntry e := by
            intro e he
            rcases List.mem_or_eq_of_mem_set he with h | h
            · exact hled e h
            · rw [h]; exact hinv1
          rcases hr : results i with fsv | m
          · rcases fsv with _ | ⟨f, fsr⟩
            · rw [runItems_cons_abort results rest saves fetched hg hsk hr]
              refine ⟨hl1, ?_⟩
              intro snap hsnap e he
              rcases List.mem_append.mp hsnap with h | h
              · exact hsav snap h e he
              · rw [List.mem_singleton.mp h] at he
                exact hl1 e he
            · have hinv2 : invEntry
                  { e0 with status := Status.success, files := f :: fsr } := by
                simp [invEntry]
              have hl2 : ∀ e ∈ (ledger.set i
                    { e0 with status := Status.in_progress }).set i
                    { e0 with status := Status.success, files := f :: fsr },
                  invEntry e := by
                intro e he
                rcases List.mem_or_eq_of_mem_set he with h | h
                · exact hl1 e h
                · rw [h]; exact hinv2
              rw [runItems_cons_ok results rest saves fetched hg hsk hr]
              refine ih _ _ _ hl2 ?_
              intro snap hsnap e he
              rcases List.mem_append.mp hsnap with h | h
              · exact hsav snap h e he
              · simp only [List.mem_cons, List.not_mem_nil, or_false] at h
                rcases h with rfl | rfl
                · exact hl1 e he
                · exact hl2 e he
          · have hinv2 : invEntry
                { e0 with status := Status.failed, error := some m } := by
              simp [invEntry, hfiles]
            have hl2 : ∀ e ∈ (ledger.set i
                  { e0 with status := Status.in_progress }).set i
                  { e0 with status := Status.failed, error := some m },
                invEntry e := by
              intro e he
              rcases List.mem_or_eq_of_mem_set he with h | h
              · exact hl1 e h
              · rw [h]; exact hinv2
            rw [runItems_cons_err results rest saves fetched hg hsk hr]
            refine ih _ _ _ hl2 ?_
            intro snap hsnap e he
            rcases List.mem_append.mp hsnap with h | h
            · exact hsav snap h e he
            · simp only [List.mem_cons, List.not_mem_nil, or_false] at h
              rcases h with rfl | rfl
              · exact hl1 e he
              · exact hl2 e he

/-- C2 witness: the entry produced by a successful run over one seeded
record satisfies the invariant. -/
theorem c2_files_nonempty_iff_success_witness :
    invEntry ⟨1, "2025-11-30 00:31:09 UTC", "Image", "Unknown", "Unknown",
      "u", Status.success, [⟨"01" ++ ".jpg", 3, FType.single⟩], none⟩ :=
  ((c2_files_nonempty_iff_success.2
      (fun _ => DlResult.ok [⟨"01" ++ ".jpg", 3, FType.single⟩]) [0]
      (initialize_metadata
        [⟨some "2025-11-30 00:31:09 UTC", some "Image", none, none, some "u"⟩])
      [] [] (by decide) (by decide)).1)
    _ (by decide)

end SnapMem

namespace SnapMem

/-- C3: a resume run selects exactly the entries with status in
{pending, in_progress, failed}; a retry-failed run exactly the `failed`
entries; a normal run all entries; and a selected entry that is `success`
with non-empty `files` is skipped — the loop state (ledger, persisted
snapshots, fetch attempts) is exactly as if the item were not there, so
no fetch happens and the entry is not mutated. -/
theorem c3_selection_policy :
    ∀ metadata_list : List Entry,
      (∀ (retry_failed : Bool) (i : Nat) (e : Entry),
        (i, e) ∈ selectItems true retry_failed metadata_list ↔
          metadata_list.get? i = some e ∧
            (e.status = Status.pending ∨ e.status = Status.in_progress
              ∨ e.status = Status.failed)) ∧
      (∀ (i : Nat) (e : Entry),
        (i, e) ∈ selectItems false true metadata_list ↔
          metadata_list.get? i = some e ∧ e.status = Status.failed) ∧
      (∀ (i : Nat) (e : Entry),
        (i, e) ∈ selectItems false false metadata_list ↔
          metadata_list.get? i = some e) ∧
      (∀ (results : Nat → DlResult) (i : Nat) (rest : List Nat)
         (saves : List (List Entry)) (fetched : List Nat) (e : Entry),
        metadata_list.get? i = some e → e.status = Status.success →
        e.files ≠ [] →
        runItems results (i :: rest) metadata_list saves fetched
          = runItems results rest metadata_list saves fetched) := by
  intro ml
  have henum : ∀ (i : Nat) (e : Entry),
      ((i, e) ∈ ml.enum ↔ ml.get? i = some e) := by
    intro i e
    rw [List.mk_mem_enum_iff_getElem?, List.get?_eq_getElem?]
  refine ⟨?_, ?_, ?_, ?_⟩
  · intro rf i e
    rw [show selectItems true rf ml
        = ml.enum.filter (fun p =>
            p.2.status == Status.pending || p.2.status == Status.in_progress
              || p.2.status == Status.failed) from rfl]
    rw [List.mem_filter, henum]
    exact and_congr_right (fun _ => by simp [or_assoc])
  · intro i e
    rw [show selectItems false true ml
        = ml.enum.filter (fun p => p.2.status == Status.failed) from rfl]
    rw [List.mem_filter, henum]
    exact and_congr_right (fun _ => by simp)
  · intro i e
    rw [show selectItems false false ml = ml.enum from rfl]
    exact henum i e
  · intro results i rest saves fetched e hget hst hfne
    have hie : e.files.isEmpty = false := by
      rcases hf : e.files with _ | _
      · exact absurd hf hfne
      · rfl
    have hsk : skipCheck e = true := by
      simp [skipCheck, hst, hie]
    exact runItems_cons_skip results rest saves fetched hget hsk

/-- C3 witness: a pending entry is selected by a resume run. -/
theorem c3_selection_policy_witness :
    (0, (⟨1, "d", "Image", "Unknown", "Unknown", "u", Status.pending, [],
        none⟩ : Entry)) ∈ selectItems true false
      [⟨1, "d", "Image", "Unknown", "Unknown", "u", Status.pending, [],
        none⟩] :=
  ((c3_selection_policy
      [⟨1, "d", "Image", "Unknown", "Unknown", "u", Status.pending, [],
        none⟩]).1 false 0
      ⟨1, "d", "Image", "Unknown", "Unknown", "u", Status.pending, [],
        none⟩).mpr (by decide)

end SnapMem

namespace SnapMem

/-- A valid empty ZIP archive: the bare end-of-central-directory record.
Its first two bytes are the magic `PK`, and `zipfile` opens it with an
empty `namelist()`. -/
def emptyZipBytes : List Byte :=
  [80, 75, 5, 6] ++ List.replicate 18 0

/-- Download outcomes for the C4 scenario: item 0 receives the
(successful) empty-archive extraction result of `download_and_extract`,
item 1 an ordinary singleton. -/
def c4results : Nat → DlResult := fun k =>
  if k == 0 then
    DlResult.ok (download_and_extract emptyZipBytes [] "01" ".jpg" []).1
  else DlResult.ok [⟨"02" ++ ".jpg", 4, FType.single⟩]

/-- Two freshly seeded ledger entries for the C4 scenario. -/
def c4ledger : List Entry :=
  initialize_metadata
    [⟨some "2025-11-30 00:31:09 UTC", some "Image", none, none, some "u1"⟩,
     ⟨some "2025-11-30 00:31:09 UTC", some "Video", none, none, some "u2"⟩]

/-- C4 counterexample: on an archive response with zero members,
`download_and_extract` returns `[]`, and the orchestrator's display code
`files_saved[0]` (download_memories.py:316) raises an IndexError that the
`except (OSError, RequestException, BadZipFile)` clause does not catch:
the batch run aborts, entry 0 is left `in_progress` with no error
recorded (never `failed`), and entry 1 — the next selected entry — is
never processed and stays `pending`.  So a single item's failure does
abort the batch, contrary to the claim. -/
theorem c4_empty_archive_aborts_batch :
    (download_and_extract emptyZipBytes [] "01" ".jpg" []).1 = [] ∧
    (download_all_memories false false c4results c4ledger).aborted = true ∧
    ((download_all_memories false false c4results c4ledger).ledger.get?
        0).map Entry.status = some Status.in_progress ∧
    ((download_all_memories false false c4results c4ledger).ledger.get?
        0).map Entry.error = some none ∧
    ((download_all_memories false false c4results c4ledger).ledger.get?
        1).map Entry.status = some Status.pending := by
  decide

/-- C4 (amended): an exception of one of the CAUGHT classes (`OSError`,
`requests.RequestException`, `zipfile.BadZipFile`) during fetch/extract of
a selected, non-skipped entry marks it `failed` with the message in its
`error` field, persists that snapshot, and processing continues with the
remaining selected entries. -/
theorem c4_caught_error_isolation :
    ∀ (results : Nat → DlResult) (ledger : List Entry)
      (saves : List (List Entry)) (fetched : List Nat) (i : Nat)
      (rest : List Nat) (e : Entry) (m : String),
      ledger.get? i = some e → skipCheck e = false →
      results i = DlResult.err m → i ∉ rest →
      (runItems results (i :: rest) ledger saves fetched
        = runItems results rest
            ((ledger.set i { e with status := Status.in_progress }).set i
              { e with status := Status.failed, error := some m })
            (saves ++ [ledger.set i { e with status := Status.in_progress },
              (ledger.set i { e with status := Status.in_progress }).set i
                { e with status := Status.failed, error := some m }])
            (fetched ++ [i])) ∧
      ((runItems results (i :: rest) ledger saves fetched).ledger.get? i
        = some { e with status := Status.failed, error := some m }) ∧
      ((ledger.set i { e with status := Status.in_progress }).set i
          { e with status := Status.failed, error := some m }
        ∈ (runItems results (i :: rest) ledger saves fetched).saves) := by
  intro results ledger saves fetched i rest e m hget hsk hr hni
  have heq := runItems_cons_err results rest saves fetched hget hsk hr
  have hlen : i < ledger.length := by
    rcases List.get?_eq_some.mp hget with ⟨h, _⟩
    exact h
  refine ⟨heq, ?_, ?_⟩
  · rw [heq, runItems_untouched results rest _ _ _ i hni,
      List.get?_eq_getElem?]
    exact List.getElem?_set_self (by simpa using hlen)
  · rw [heq]
    exact runItems_saves_mono results rest _ _ _ _
      (List.mem_append_right _ (by simp))

/-- C4 witness for the amended claim: a concrete caught failure on entry 0
of a two-entry ledger ends with entry 0 `failed` and the error text
recorded. -/
theorem c4_caught_error_isolation_witness :
    (runItems (fun _ => DlResult.err "HTTPError") [0, 1]
        [⟨1, "d1", "Image", "Unknown", "Unknown", "u1", Status.pending, [],
          none⟩,
         ⟨2, "d2", "Video", "Unknown", "Unknown", "u2", Status.pending, [],
          none⟩] [] []).ledger.get? 0
      = some ⟨1, "d1", "Image", "Unknown", "Unknown", "u1", Status.failed,
          [], some "HTTPError"⟩ :=
  (c4_caught_error_isolation (fun _ => DlResult.err "HTTPError")
      [⟨1, "d1", "Image", "Unknown", "Unknown", "u1", Status.pending, [],
        none⟩,
       ⟨2, "d2", "Video", "Unknown", "Unknown", "u2", Status.pending, [],
        none⟩] [] [] 0 [1]
      ⟨1, "d1", "Image", "Unknown", "Unknown", "u1", Status.pending, [],
        none⟩ "HTTPError" rfl (by decide) rfl (by decide)).2.1

/-- C5: (a) after the loop, the last persisted snapshot always equals the
final in-memory ledger — every completed transition is on disk, including
at an abort; (b) per selected, non-skipped entry the loop persists the
whole ledger immediately after the `in_progress` transition and again
immediately after the `success`/`failed` transition, before the remaining
entries are processed; on the abort path the `in_progress` snapshot is
persisted and nothing further happens.  Transitions are never batched. -/
theorem c5_persist_after_every_transition :
    ∀ (results : Nat → DlResult) (sel : List Nat) (ledger : List Entry)
      (saves : List (List Entry)) (fetched : List Nat),
      ((runItems results sel ledger saves fetched).saves.getLast?
        = some (runItems results sel ledger saves fetched).ledger) ∧
      (∀ (i : Nat) (rest : List Nat) (e : Entry), sel = i :: rest →
        ledger.get? i = some e → skipCheck e = false →
        (∀ m, results i = DlResult.err m →
          runItems results sel ledger saves fetched
            = runItems results rest
                ((ledger.set i { e with status := Status.in_progress }).set i
                  { e with status := Status.failed, error := some m })
                (saves
                  ++ [ledger.set i { e with status := Status.in_progress },
                      (ledger.set i
                          { e with status := Status.in_progress }).set i
                        { e with status := Status.failed, error := some m }])
                (fetched ++ [i])) ∧
        (∀ (f : FileRef) (fsr : List FileRef),
          results i = DlResult.ok (f :: fsr) →
          runItems results sel ledger saves fetched
            = runItems results rest
                ((ledger.set i { e with status := Status.in_progress }).set i
                  { e with status := Status.success, files := f :: fsr })
                (saves
                  ++ [ledger.set i { e with status := Status.in_progress },
                      (ledger.set i
                          { e with status := Status.in_progress }).set i
                        { e with
                            status := Status.success, files := f :: fsr }])
                (fetched ++ [i])) ∧
        (results i = DlResult.ok [] →
          runItems results sel ledger saves fetched
            = ⟨ledger.set i { e with status := Status.in_progress },
               saves ++ [ledger.set i { e with status := Status.in_progress }],
               fetched ++ [i], true⟩)) := by
  intro results sel ledger saves fetched
  refine ⟨runItems_sync results sel ledger saves fetched, ?_⟩
  intro i rest e hsel hget hsk
  subst hsel
  exact ⟨fun m hr => runItems_cons_err results rest saves fetched hget hsk hr,
    fun f fsr hr => runItems_cons_ok results rest saves fetched hget hsk hr,
    fun hr => runItems_cons_abort results rest saves fetched hget hsk hr⟩

/-- C5 witness: one failing entry — the loop persists the `in_progress`
snapshot and then the `failed` snapshot before moving on. -/
theorem c5_persist_after_every_transition_witness :
    runItems (fun _ => DlResult.err "boom") [0]
        [⟨1, "d", "Image", "Unknown", "Unknown", "u", Status.pending, [],
          none⟩] [] []
      = runItems (fun _ => DlResult.err "boom") []
          [⟨1, "d", "Image", "Unknown", "Unknown", "u", Status.failed, [],
            some "boom"⟩]
          [[⟨1, "d", "Image", "Unknown", "Unknown", "u", Status.in_progress,
              [], none⟩],
           [⟨1, "d", "Image", "Unknown", "Unknown", "u", Status.failed, [],
              some "boom"⟩]] [0] :=
  ((c5_persist_after_every_transition (fun _ => DlResult.err "boom") [0]
      [⟨1, "d", "Image", "Unknown", "Unknown", "u", Status.pending, [],
        none⟩] [] []).2 0 []
      ⟨1, "d", "Image", "Unknown", "Unknown", "u", Status.pending, [],
        none⟩ rfl rfl (by decide)).1 "boom" rfl

end SnapMem
